import Mathlib

/-!
A shallow embedding of src/bmks/alloc_test.c, the multi-threaded map/unmap
latency microbenchmark, together with theorems settling the specification
claims about it.

Modelling conventions:
* C unsigned long long (64-bit) arithmetic is Nat with explicit reduction
  modulo 2^64 (u64add, u64sub below).
* The operating system and the hardware cycle counter are external
  collaborators; they are modelled as oracles supplied to the embedded
  functions: an address oracle for mmap results and a sample oracle for
  rdtsc reads.
* The locals map_time and unmap_time of map_thread and unmap_thread are
  declared without an initial value in the C source; their indeterminate
  initial contents are modelled as an explicit parameter time0.
* Worker threads are sequentialized inside each phase of the run trace
  (their timed loops are placed after the gate opening of their phase and
  before the joins).  The claims proved below concern per-thread results
  and the phase structure, both of which are independent of the
  interleaving of workers inside one phase.
-/

namespace AllocTest

/-- PAGE_SHIFT from alloc_test.c: sizes are given in 4 KiB pages. -/
def PAGE_SHIFT : Nat := 12

/-- The MAP_ANONYMOUS bit of the mmap flags word (Linux x86-64 value). -/
def MAP_ANONYMOUS : Nat := 0x20

/-- The MAP_PRIVATE bit of the mmap flags word (Linux x86-64 value). -/
def MAP_PRIVATE : Nat := 0x02

/-- The MAP_HUGETLB bit of the mmap flags word (Linux x86-64 value). -/
def MAP_HUGETLB : Nat := 0x40000

/-- The sentinel address returned by a failed mmap: (void * )-1 as an
unsigned 64-bit pointer value. -/
def MAP_FAILED : Nat := 2 ^ 64 - 1

/-- Modulus of C unsigned long long arithmetic. -/
def U64 : Nat := 2 ^ 64

/-- 64-bit unsigned addition, as performed on map_time and unmap_time. -/
def u64add (a b : Nat) : Nat := (a + b) % U64

/-- 64-bit unsigned subtraction end - start, as performed on the two rdtsc
samples surrounding each operation. -/
def u64sub (a b : Nat) : Nat := (a % U64 + U64 - b % U64) % U64

/-- strtoul(s, NULL, 10) restricted to the inputs the benchmark is invoked
with: the longest leading run of decimal digits is converted, and a string
with no leading digit converts to 0. -/
def strtoul (s : String) : Nat :=
  (s.data.takeWhile Char.isDigit).foldl (fun n c => n * 10 + (c.toNat - 48)) 0

/-- One mmap invocation issued by map_thread: the requested length and
flags, tagged with the loop index (the Address Book slot) it fills. -/
structure MmapCall where
  idx : Nat
  len : Nat
  flags : Nat
deriving DecidableEq, Repr

/-- One munmap invocation issued by unmap_thread: the address and length
passed, tagged with the loop index (the Address Book slot) it consumes. -/
structure MunmapCall where
  idx : Nat
  addr : Nat
  len : Nat
deriving DecidableEq, Repr

/-- The timed loop of map_thread.  Iteration i samples the clock, calls
mmap(NULL, size, PROT, flags, -1, 0) whose returned address the oracle os
gives, samples the clock again and adds the 64-bit delta to the running
time.  clk k is the value of the k-th rdtsc executed by this thread, so
iteration i samples clk (2i) and clk (2i+1).  Returns the call log, the
Address Book contents (addr[0..n)) and the final value of map_time. -/
def mapThreadGo (size flags : Nat) (os clk : Nat → Nat) :
    Nat → Nat → Nat → List MmapCall × List Nat × Nat
  | _, 0, time => ([], [], time)
  | i, rem + 1, time =>
      let tStart := clk (2 * i)
      let a := os i
      let tEnd := clk (2 * i + 1)
      let rest := mapThreadGo size flags os clk (i + 1) rem
        (u64add time (u64sub tEnd tStart))
      (⟨i, size, flags⟩ :: rest.1, a :: rest.2.1, rest.2.2)

/-- map_thread from alloc_test.c: performs n timed mmap calls of size
bytes each, storing each result into the next Address Book slot and
accumulating per-operation cycle deltas.  time0 is the indeterminate
initial value of the uninitialized local map_time. -/
def map_thread (size flags n : Nat) (os clk : Nat → Nat) (time0 : Nat) :
    List MmapCall × List Nat × Nat :=
  mapThreadGo size flags os clk 0 n time0

/-- The timed loop of unmap_thread.  Iteration i samples the clock, calls
munmap(addr[i], size) unconditionally, samples the clock again and adds
the 64-bit delta to the running time.  The Address Book is consumed in
index order. -/
def unmapThreadGo (size : Nat) (clk : Nat → Nat) :
    Nat → List Nat → Nat → List MunmapCall × Nat
  | _, [], time => ([], time)
  | i, a :: book, time =>
      let tStart := clk (2 * i)
      let tEnd := clk (2 * i + 1)
      let rest := unmapThreadGo size clk (i + 1) book
        (u64add time (u64sub tEnd tStart))
      (⟨i, a, size⟩ :: rest.1, rest.2)

/-- unmap_thread from alloc_test.c: performs one timed munmap call per
Address Book slot, in index order, accumulating per-operation cycle
deltas.  time0 is the indeterminate initial value of the uninitialized
local unmap_time. -/
def unmap_thread (size : Nat) (book : List Nat) (clk : Nat → Nat)
    (time0 : Nat) : List MunmapCall × Nat :=
  unmapThreadGo size clk 0 book time0

/-- The run configuration main derives from argv (globals size,
num_allocations, num_threads, flags of alloc_test.c). -/
structure Config where
  size : Nat
  num_allocations : Nat
  num_threads : Nat
  flags : Nat
deriving DecidableEq, Repr

/-- The argument handling of main (alloc_test.c lines 67-83), over argv
including the program name (argc = argv.length).  Fewer than two argv
entries is the usage error; otherwise num_allocations and num_threads
default to 1 and are overridden by argv[2] and argv[3] when present,
MAP_HUGETLB is OR-ed into the flags exactly when argc >= 5 (the value of
argv[4] is never read), and size is argv[1] shifted by PAGE_SHIFT. -/
def parseArgs (argv : List String) : Option Config :=
  if argv.length < 2 then
    none
  else
    let num_allocations := if 3 ≤ argv.length then strtoul (argv.getD 2 "") else 1
    let num_threads := if 4 ≤ argv.length then strtoul (argv.getD 3 "") else 1
    let flags :=
      if 5 ≤ argv.length then (MAP_ANONYMOUS ||| MAP_PRIVATE) ||| MAP_HUGETLB
      else MAP_ANONYMOUS ||| MAP_PRIVATE
    let size := strtoul (argv.getD 1 "") <<< PAGE_SHIFT
    some ⟨size, num_allocations, num_threads, flags⟩

/-- The two output streams of the process. -/
inductive Stream where
  | stdout
  | stderr
deriving DecidableEq, Repr

/-- One of the two sequential phases of a run. -/
inductive Phase where
  | map
  | unmap
deriving DecidableEq, Repr

/-- Observable events of a run of main, in coordinator program order:
the usage message (with the stream it is printed to), thread creation
(with the pthread_create return value, which the code never inspects),
gate opening (begin = 1), the individual mmap and munmap calls of the
workers (thread, slot, arguments), thread joins, and the per-phase
aggregate report. -/
inductive Event where
  | usageMsg (s : Stream)
  | create (ph : Phase) (t : Nat) (ret : Int)
  | gateOpen (ph : Phase)
  | mmapCall (t i len flags : Nat)
  | munmapCall (t i addr len : Nat)
  | join (ph : Phase) (t : Nat)
  | report (ph : Phase) (total : Nat)
deriving DecidableEq, Repr

/-- The external world of one run: os t i is the address mmap returns for
the i-th call of map thread t; clk ph t k is the k-th rdtsc sample of
thread t of phase ph; time0 ph t is the indeterminate initial value of the
uninitialized accumulator of that worker; createRet ph t is the value
pthread_create returns when spawning that worker (ignored by the code). -/
structure Oracles where
  os : Nat → Nat → Nat
  clk : Phase → Nat → Nat → Nat
  time0 : Phase → Nat → Nat
  createRet : Phase → Nat → Int

/-- The complete result of map thread t: its call log, its Address Book
and the map_time value it returns to the coordinator. -/
def mapResult (cfg : Config) (o : Oracles) (t : Nat) :
    List MmapCall × List Nat × Nat :=
  map_thread cfg.size cfg.flags cfg.num_allocations (o.os t)
    (o.clk Phase.map t) (o.time0 Phase.map t)

/-- The Address Book addr[t] as populated by the map phase. -/
def book (cfg : Config) (o : Oracles) (t : Nat) : List Nat :=
  (mapResult cfg o t).2.1

/-- The complete result of unmap thread t, fed the Address Book the map
phase produced for slot t. -/
def unmapResult (cfg : Config) (o : Oracles) (t : Nat) :
    List MunmapCall × Nat :=
  unmap_thread cfg.size (book cfg o t) (o.clk Phase.unmap t)
    (o.time0 Phase.unmap t)

/-- total_map_time: the coordinator's 64-bit sum of the per-thread
map_time values, in join order. -/
def totalMapTime (cfg : Config) (o : Oracles) : Nat :=
  ((List.range cfg.num_threads).map (fun t => (mapResult cfg o t).2.2)).foldl
    u64add 0

/-- total_unmap_time: the coordinator's 64-bit sum of the per-thread
unmap_time values, in join order. -/
def totalUnmapTime (cfg : Config) (o : Oracles) : Nat :=
  ((List.range cfg.num_threads).map (fun t => (unmapResult cfg o t).2)).foldl
    u64add 0

/-- The events of the map phase of a run in which every pthread_create
succeeded (the defined-behavior case; see runResult for the creation
error path): spawn every worker, open the gate, run the workers' timed
loops (sequentialized), join every worker, report the aggregate. -/
def mapPhaseEvents (cfg : Config) (o : Oracles) : List Event :=
  ((List.range cfg.num_threads).map
      (fun t => Event.create Phase.map t (o.createRet Phase.map t)))
    ++ [Event.gateOpen Phase.map]
    ++ ((List.range cfg.num_threads).map
        (fun t => (mapResult cfg o t).1.map
          (fun c => Event.mmapCall t c.idx c.len c.flags))).flatten
    ++ ((List.range cfg.num_threads).map (fun t => Event.join Phase.map t))
    ++ [Event.report Phase.map (totalMapTime cfg o)]

/-- The events of the unmap phase of a run in which every pthread_create
succeeded (the defined-behavior case; see runResult for the creation
error path): spawn every worker, open the gate, run the workers' timed
loops (sequentialized), join every worker, report the aggregate. -/
def unmapPhaseEvents (cfg : Config) (o : Oracles) : List Event :=
  ((List.range cfg.num_threads).map
      (fun t => Event.create Phase.unmap t (o.createRet Phase.unmap t)))
    ++ [Event.gateOpen Phase.unmap]
    ++ ((List.range cfg.num_threads).map
        (fun t => (unmapResult cfg o t).1.map
          (fun c => Event.munmapCall t c.idx c.addr c.len))).flatten
    ++ ((List.range cfg.num_threads).map (fun t => Event.join Phase.unmap t))
    ++ [Event.report Phase.unmap (totalUnmapTime cfg o)]

/-- The trace of a full run after successful argument parsing: the map
phase in its entirety, then the unmap phase (main joins every map worker
before creating any unmap worker). -/
def runTrace (cfg : Config) (o : Oracles) : List Event :=
  mapPhaseEvents cfg o ++ unmapPhaseEvents cfg o

/-- main from alloc_test.c, restricted to runs in which every
pthread_create succeeds: with fewer than two argv entries it prints the
usage message with printf (standard output) and returns -1; otherwise it
runs the two phases and returns 0.  runResult below extends this with
the thread-creation error path. -/
def main (argv : List String) (o : Oracles) : List Event × Int :=
  match parseArgs argv with
  | none => ([Event.usageMsg Stream.stdout], -1)
  | some cfg => (runTrace cfg o, 0)

/-- Whether every pthread_create of the run succeeds: the source spawns
num_threads workers in each phase and pthread_create reports success by
returning 0. -/
def createsOk (o : Oracles) (T : Nat) : Bool :=
  ((List.range T).all fun t => o.createRet Phase.map t == 0)
    && ((List.range T).all fun t => o.createRet Phase.unmap t == 0)

/-- The result of a run of main with the thread-creation error path
modelled.  main never inspects pthread_create's return value: when every
creation succeeds the run is the two-phase trace with exit status 0, but
when any creation fails that worker never runs and main nevertheless goes
on to pthread_join the uninitialized pthread_t slot, which has no defined
behavior in C — such a run has no defined result (none).  The usage-error
path performs no creation and is always defined. -/
def runResult (argv : List String) (o : Oracles) :
    Option (List Event × Int) :=
  match parseArgs argv with
  | none => some ([Event.usageMsg Stream.stdout], -1)
  | some cfg =>
      if createsOk o cfg.num_threads then some (runTrace cfg o, 0) else none

/-- Recognizes an mmap call event. -/
def Event.isMmapCall : Event → Bool
  | .mmapCall .. => true
  | _ => false

/-- Recognizes a munmap call event. -/
def Event.isMunmapCall : Event → Bool
  | .munmapCall .. => true
  | _ => false

/-- Recognizes a thread-creation event. -/
def Event.isCreate : Event → Bool
  | .create .. => true
  | _ => false

/-- Recognizes the join of a map-phase worker. -/
def Event.isMapJoin : Event → Bool
  | .join Phase.map _ => true
  | _ => false

/-- Recognizes a per-phase aggregate report event. -/
def Event.isReport : Event → Bool
  | .report .. => true
  | _ => false

/-- The number of bytes an event requests from the OS: the length of an
mmap call, 0 for every other event. -/
def Event.bytesRequested : Event → Nat
  | .mmapCall _ _ len _ => len
  | _ => 0

/-- The call log of the map loop: one mmap call per iteration, each of
the configured size and flags, at consecutive slot indices. -/
theorem mapThreadGo_calls (size flags : Nat) (os clk : Nat → Nat) (n : Nat) :
    ∀ (i time : Nat),
      (mapThreadGo size flags os clk i n time).1
        = (List.range' i n).map (fun k => MmapCall.mk k size flags) := by
  induction n with
  | zero => intro i time; simp [mapThreadGo]
  | succ m ih =>
      intro i time
      simp only [mapThreadGo, List.range'_succ, List.map_cons, List.cons.injEq]
      exact ⟨trivial, ih (i + 1) _⟩

/-- The Address Book the map loop populates: slot k receives the address
the OS returned for the k-th mmap call. -/
theorem mapThreadGo_book (size flags : Nat) (os clk : Nat → Nat) (n : Nat) :
    ∀ (i time : Nat),
      (mapThreadGo size flags os clk i n time).2.1 = (List.range' i n).map os := by
  induction n with
  | zero => intro i time; simp [mapThreadGo]
  | succ m ih =>
      intro i time
      simp only [mapThreadGo, List.range'_succ, List.map_cons, List.cons.injEq]
      exact ⟨trivial, ih (i + 1) _⟩

/-- The accumulator of the map loop: starting from the indeterminate
initial value, each iteration adds its own rdtsc delta (64-bit). -/
theorem mapThreadGo_time (size flags : Nat) (os clk : Nat → Nat) (n : Nat) :
    ∀ (i time : Nat),
      (mapThreadGo size flags os clk i n time).2.2
        = (List.range' i n).foldl
            (fun acc k => u64add acc (u64sub (clk (2 * k + 1)) (clk (2 * k))))
            time := by
  induction n with
  | zero => intro i time; simp [mapThreadGo]
  | succ m ih =>
      intro i time
      simp only [mapThreadGo, List.range'_succ, List.foldl_cons]
      exact ih (i + 1) _

/-- The call log of the unmap loop: one munmap call per Address Book
slot, in slot order, passing the slot's recorded address and the
configured size — no slot is skipped, sentinel or not. -/
theorem unmapThreadGo_calls (size : Nat) (clk : Nat → Nat) (book : List Nat) :
    ∀ (i time : Nat),
      (unmapThreadGo size clk i book time).1
        = List.zipWith (fun k a => MunmapCall.mk k a size)
            (List.range' i book.length) book := by
  induction book with
  | nil => intro i time; simp [unmapThreadGo]
  | cons a rest ih =>
      intro i time
      simp only [unmapThreadGo, List.length_cons, List.range'_succ,
        List.zipWith_cons_cons, List.cons.injEq]
      exact ⟨trivial, ih (i + 1) _⟩

/-- The accumulator of the unmap loop: starting from the indeterminate
initial value, each iteration — every slot, sentinel or not — adds its
own rdtsc delta (64-bit). -/
theorem unmapThreadGo_time (size : Nat) (clk : Nat → Nat) (book : List Nat) :
    ∀ (i time : Nat),
      (unmapThreadGo size clk i book time).2
        = (List.range' i book.length).foldl
            (fun acc k => u64add acc (u64sub (clk (2 * k + 1)) (clk (2 * k))))
            time := by
  induction book with
  | nil => intro i time; simp [unmapThreadGo]
  | cons a rest ih =>
      intro i time
      simp only [unmapThreadGo, List.length_cons, List.range'_succ,
        List.foldl_cons]
      exact ih (i + 1) _

/-- map_thread's call log at top level. -/
theorem map_thread_calls (size flags n : Nat) (os clk : Nat → Nat)
    (time0 : Nat) :
    (map_thread size flags n os clk time0).1
      = (List.range n).map (fun k => MmapCall.mk k size flags) := by
  rw [map_thread, mapThreadGo_calls, List.range_eq_range']

/-- map_thread's Address Book at top level. -/
theorem map_thread_book (size flags n : Nat) (os clk : Nat → Nat)
    (time0 : Nat) :
    (map_thread size flags n os clk time0).2.1 = (List.range n).map os := by
  rw [map_thread, mapThreadGo_book, List.range_eq_range']

/-- map_thread's returned accumulator at top level. -/
theorem map_thread_time (size flags n : Nat) (os clk : Nat → Nat)
    (time0 : Nat) :
    (map_thread size flags n os clk time0).2.2
      = (List.range n).foldl
          (fun acc k => u64add acc (u64sub (clk (2 * k + 1)) (clk (2 * k))))
          time0 := by
  rw [map_thread, mapThreadGo_time, List.range_eq_range']

/-- unmap_thread's call log at top level. -/
theorem unmap_thread_calls (size : Nat) (book : List Nat) (clk : Nat → Nat)
    (time0 : Nat) :
    (unmap_thread size book clk time0).1
      = List.zipWith (fun k a => MunmapCall.mk k a size)
          (List.range book.length) book := by
  rw [unmap_thread, unmapThreadGo_calls, List.range_eq_range']

/-- unmap_thread's returned accumulator at top level. -/
theorem unmap_thread_time (size : Nat) (book : List Nat) (clk : Nat → Nat)
    (time0 : Nat) :
    (unmap_thread size book clk time0).2
      = (List.range book.length).foldl
          (fun acc k => u64add acc (u64sub (clk (2 * k + 1)) (clk (2 * k))))
          time0 := by
  rw [unmap_thread, unmapThreadGo_time, List.range_eq_range']

/-- Projecting the addresses out of an unmap call log recovers the
Address Book itself. -/
theorem zipWith_munmap_addr (size : Nat) (book : List Nat) :
    ∀ i, (List.zipWith (fun k a => MunmapCall.mk k a size)
        (List.range' i book.length) book).map MunmapCall.addr = book := by
  induction book with
  | nil => intro i; simp
  | cons a rest ih =>
      intro i
      simp only [List.length_cons, List.range'_succ, List.zipWith_cons_cons,
        List.map_cons, List.cons.injEq]
      exact ⟨trivial, ih (i + 1)⟩

/-- Projecting the slot indices out of an unmap call log yields each slot
exactly once, in order. -/
theorem zipWith_munmap_idx (size : Nat) (book : List Nat) :
    ∀ i, (List.zipWith (fun k a => MunmapCall.mk k a size)
        (List.range' i book.length) book).map MunmapCall.idx
      = List.range' i book.length := by
  induction book with
  | nil => intro i; simp
  | cons a rest ih =>
      intro i
      simp only [List.length_cons, List.range'_succ, List.zipWith_cons_cons,
        List.map_cons, List.cons.injEq]
      exact ⟨trivial, ih (i + 1)⟩

/-- Every munmap call of an unmap call log passes the configured size. -/
theorem zipWith_munmap_len (size : Nat) (book : List Nat) :
    ∀ i, (List.zipWith (fun k a => MunmapCall.mk k a size)
        (List.range' i book.length) book).map MunmapCall.len
      = List.replicate book.length size := by
  induction book with
  | nil => intro i; simp
  | cons a rest ih =>
      intro i
      simp only [List.length_cons, List.range'_succ, List.zipWith_cons_cons,
        List.map_cons, List.replicate_succ, List.cons.injEq]
      exact ⟨trivial, ih (i + 1)⟩

/-- The Address Book of thread t has exactly num_allocations slots. -/
theorem book_length (cfg : Config) (o : Oracles) (t : Nat) :
    (book cfg o t).length = cfg.num_allocations := by
  rw [book, mapResult, map_thread_book, List.length_map, List.length_range]

/-- countP over an image list all of whose members falsify the predicate. -/
theorem countP_map_zero {α : Type} (p : Event → Bool) (f : α → Event)
    (l : List α) (h : ∀ a, p (f a) = false) : (l.map f).countP p = 0 := by
  have hf : (p ∘ f) = fun _ => false := by funext a; exact h a
  rw [List.countP_map, hf]
  simp

/-- countP over an image list all of whose members satisfy the predicate. -/
theorem countP_map_length {α : Type} (p : Event → Bool) (f : α → Event)
    (l : List α) (h : ∀ a, p (f a) = true) : (l.map f).countP p = l.length := by
  have hf : (p ∘ f) = fun _ => true := by funext a; exact h a
  rw [List.countP_map, hf]
  simp

/-- The mmap section of map thread t contributes num_allocations mmap
call events. -/
theorem countP_mmap_section (cfg : Config) (o : Oracles) (t : Nat) :
    ((mapResult cfg o t).1.map
        (fun c => Event.mmapCall t c.idx c.len c.flags)).countP
      Event.isMmapCall = cfg.num_allocations := by
  rw [countP_map_length _ _ _ (fun c => rfl), mapResult, map_thread_calls,
    List.length_map, List.length_range]

/-- The munmap section of unmap thread t contributes num_allocations
munmap call events. -/
theorem countP_munmap_section (cfg : Config) (o : Oracles) (t : Nat) :
    ((unmapResult cfg o t).1.map
        (fun c => Event.munmapCall t c.idx c.addr c.len)).countP
      Event.isMunmapCall = cfg.num_allocations := by
  rw [countP_map_length _ _ _ (fun c => rfl), unmapResult, unmap_thread_calls,
    List.length_zipWith, List.length_range, book_length]
  simp

/-- Sum across all threads of a per-thread constant count. -/
theorem sum_map_const_count (T v : Nat) (f : Nat → Nat)
    (h : ∀ t, f t = v) : ((List.range T).map f).sum = T * v := by
  have hf : f = fun _ => v := by funext t; exact h t
  rw [hf, List.map_const', List.sum_replicate, List.length_range, smul_eq_mul]

/-- The map phase attempts exactly num_threads * num_allocations mmap
calls. -/
theorem countP_mmap_mapPhase (cfg : Config) (o : Oracles) :
    (mapPhaseEvents cfg o).countP Event.isMmapCall
      = cfg.num_threads * cfg.num_allocations := by
  simp only [mapPhaseEvents, List.countP_append]
  rw [countP_map_zero _ _ _ (fun t => rfl),
    countP_map_zero _ _ _ (fun t => rfl),
    List.countP_flatten, List.map_map]
  simp only [Function.comp_def]
  rw [sum_map_const_count cfg.num_threads cfg.num_allocations _
      (fun t => countP_mmap_section cfg o t)]
  simp [List.countP_singleton, Event.isMmapCall]

/-- The map phase contains no munmap call event. -/
theorem countP_munmap_mapPhase (cfg : Config) (o : Oracles) :
    (mapPhaseEvents cfg o).countP Event.isMunmapCall = 0 := by
  simp only [mapPhaseEvents, List.countP_append]
  rw [countP_map_zero _ _ _ (fun t => rfl),
    countP_map_zero _ _ _ (fun t => rfl),
    List.countP_flatten, List.map_map]
  simp only [Function.comp_def]
  rw [sum_map_const_count cfg.num_threads 0 _
      (fun t => countP_map_zero _ _ _ (fun c => rfl))]
  simp [List.countP_singleton, Event.isMunmapCall]

/-- The unmap phase performs exactly num_threads * num_allocations munmap
calls. -/
theorem countP_munmap_unmapPhase (cfg : Config) (o : Oracles) :
    (unmapPhaseEvents cfg o).countP Event.isMunmapCall
      = cfg.num_threads * cfg.num_allocations := by
  simp only [unmapPhaseEvents, List.countP_append]
  rw [countP_map_zero _ _ _ (fun t => rfl),
    countP_map_zero _ _ _ (fun t => rfl),
    List.countP_flatten, List.map_map]
  simp only [Function.comp_def]
  rw [sum_map_const_count cfg.num_threads cfg.num_allocations _
      (fun t => countP_munmap_section cfg o t)]
  simp [List.countP_singleton, Event.isMunmapCall]

/-- The unmap phase contains no mmap call event. -/
theorem countP_mmap_unmapPhase (cfg : Config) (o : Oracles) :
    (unmapPhaseEvents cfg o).countP Event.isMmapCall = 0 := by
  simp only [unmapPhaseEvents, List.countP_append]
  rw [countP_map_zero _ _ _ (fun t => rfl),
    countP_map_zero _ _ _ (fun t => rfl),
    List.countP_flatten, List.map_map]
  simp only [Function.comp_def]
  rw [sum_map_const_count cfg.num_threads 0 _
      (fun t => countP_map_zero _ _ _ (fun c => rfl))]
  simp [List.countP_singleton, Event.isMmapCall]

/-- Each phase emits exactly one aggregate report event. -/
theorem countP_report_mapPhase (cfg : Config) (o : Oracles) :
    (mapPhaseEvents cfg o).countP Event.isReport = 1 := by
  simp only [mapPhaseEvents, List.countP_append]
  rw [countP_map_zero _ _ _ (fun t => rfl),
    countP_map_zero _ _ _ (fun t => rfl),
    List.countP_flatten, List.map_map]
  simp only [Function.comp_def]
  rw [sum_map_const_count cfg.num_threads 0 _
      (fun t => countP_map_zero _ _ _ (fun c => rfl))]
  simp [List.countP_singleton, Event.isReport]

/-- Each phase emits exactly one aggregate report event. -/
theorem countP_report_unmapPhase (cfg : Config) (o : Oracles) :
    (unmapPhaseEvents cfg o).countP Event.isReport = 1 := by
  simp only [unmapPhaseEvents, List.countP_append]
  rw [countP_map_zero _ _ _ (fun t => rfl),
    countP_map_zero _ _ _ (fun t => rfl),
    List.countP_flatten, List.map_map]
  simp only [Function.comp_def]
  rw [sum_map_const_count cfg.num_threads 0 _
      (fun t => countP_map_zero _ _ _ (fun c => rfl))]
  simp [List.countP_singleton, Event.isReport]

/-- Each phase spawns exactly num_threads workers. -/
theorem countP_create_mapPhase (cfg : Config) (o : Oracles) :
    (mapPhaseEvents cfg o).countP Event.isCreate = cfg.num_threads := by
  simp only [mapPhaseEvents, List.countP_append]
  rw [countP_map_length _ _ _ (fun t => rfl),
    countP_map_zero _ _ _ (fun t => rfl),
    List.countP_flatten, List.map_map]
  simp only [Function.comp_def]
  rw [sum_map_const_count cfg.num_threads 0 _
      (fun t => countP_map_zero _ _ _ (fun c => rfl))]
  simp [List.countP_singleton, Event.isCreate]

/-- Each phase spawns exactly num_threads workers. -/
theorem countP_create_unmapPhase (cfg : Config) (o : Oracles) :
    (unmapPhaseEvents cfg o).countP Event.isCreate = cfg.num_threads := by
  simp only [unmapPhaseEvents, List.countP_append]
  rw [countP_map_length _ _ _ (fun t => rfl),
    countP_map_zero _ _ _ (fun t => rfl),
    List.countP_flatten, List.map_map]
  simp only [Function.comp_def]
  rw [sum_map_const_count cfg.num_threads 0 _
      (fun t => countP_map_zero _ _ _ (fun c => rfl))]
  simp [List.countP_singleton, Event.isCreate]

/-- Requested bytes summed over an image list of non-mmap events. -/
theorem bytes_map_zero {α : Type} (f : α → Event) (l : List α)
    (h : ∀ a, (f a).bytesRequested = 0) :
    ((l.map f).map Event.bytesRequested).sum = 0 := by
  rw [List.map_map]
  have hf : (Event.bytesRequested ∘ f) = fun _ => 0 := by funext a; exact h a
  rw [hf, List.map_const']
  simp

/-- The mmap section of thread t requests num_allocations * size bytes in
total: every one of its calls requests the full configured size. -/
theorem bytes_mmap_section (cfg : Config) (o : Oracles) (t : Nat) :
    (((mapResult cfg o t).1.map
        (fun c => Event.mmapCall t c.idx c.len c.flags)).map
      Event.bytesRequested).sum = cfg.num_allocations * cfg.size := by
  rw [List.map_map]
  have hf : (Event.bytesRequested ∘
      fun c : MmapCall => Event.mmapCall t c.idx c.len c.flags)
      = MmapCall.len := by funext c; rfl
  rw [hf, mapResult, map_thread_calls, List.map_map]
  have hl : (MmapCall.len ∘ fun k => MmapCall.mk k cfg.size cfg.flags)
      = fun _ => cfg.size := by funext k; rfl
  rw [hl, List.map_const', List.length_range, List.sum_replicate, smul_eq_mul]

/-- Total bytes requested during the map phase. -/
theorem bytes_mapPhase (cfg : Config) (o : Oracles) :
    ((mapPhaseEvents cfg o).map Event.bytesRequested).sum
      = cfg.num_threads * (cfg.num_allocations * cfg.size) := by
  simp only [mapPhaseEvents, List.map_append, List.sum_append]
  rw [bytes_map_zero
      (fun t => Event.create Phase.map t (o.createRet Phase.map t))
      (List.range cfg.num_threads) (fun t => rfl),
    bytes_map_zero (fun t => Event.join Phase.map t)
      (List.range cfg.num_threads) (fun t => rfl),
    List.map_flatten, List.sum_flatten, List.map_map, List.map_map]
  simp only [Function.comp_def]
  rw [sum_map_const_count cfg.num_threads (cfg.num_allocations * cfg.size) _
    (fun t => bytes_mmap_section cfg o t)]
  simp [Event.bytesRequested]

/-- The unmap phase requests no bytes. -/
theorem bytes_unmapPhase (cfg : Config) (o : Oracles) :
    ((unmapPhaseEvents cfg o).map Event.bytesRequested).sum = 0 := by
  simp only [unmapPhaseEvents, List.map_append, List.sum_append]
  rw [bytes_map_zero
      (fun t => Event.create Phase.unmap t (o.createRet Phase.unmap t))
      (List.range cfg.num_threads) (fun t => rfl),
    bytes_map_zero (fun t => Event.join Phase.unmap t)
      (List.range cfg.num_threads) (fun t => rfl),
    List.map_flatten, List.sum_flatten, List.map_map, List.map_map]
  simp only [Function.comp_def]
  rw [sum_map_const_count cfg.num_threads 0 _
    (fun t => bytes_map_zero
      (fun c : MunmapCall => Event.munmapCall t c.idx c.addr c.len)
      ((unmapResult cfg o t).1) (fun c => rfl))]
  simp [Event.bytesRequested]

/-- No event of the map phase is a munmap call. -/
theorem mapPhase_no_munmap (cfg : Config) (o : Oracles) :
    ∀ e ∈ mapPhaseEvents cfg o, e.isMunmapCall = false := by
  intro e he
  simp only [mapPhaseEvents, List.mem_append] at he
  rcases he with (((h | h) | h) | h) | h
  · rcases List.mem_map.mp h with ⟨t, _, rfl⟩; rfl
  · rw [List.mem_singleton.mp h]; rfl
  · rcases List.mem_flatten.mp h with ⟨l, hl, hel⟩
    rcases List.mem_map.mp hl with ⟨t, _, rfl⟩
    rcases List.mem_map.mp hel with ⟨c, _, rfl⟩
    rfl
  · rcases List.mem_map.mp h with ⟨t, _, rfl⟩; rfl
  · rw [List.mem_singleton.mp h]; rfl

/-- No event of the unmap phase is the join of a map worker. -/
theorem unmapPhase_no_mapJoin (cfg : Config) (o : Oracles) :
    ∀ e ∈ unmapPhaseEvents cfg o, e.isMapJoin = false := by
  intro e he
  simp only [unmapPhaseEvents, List.mem_append] at he
  rcases he with (((h | h) | h) | h) | h
  · rcases List.mem_map.mp h with ⟨t, _, rfl⟩; rfl
  · rw [List.mem_singleton.mp h]; rfl
  · rcases List.mem_flatten.mp h with ⟨l, hl, hel⟩
    rcases List.mem_map.mp hl with ⟨t, _, rfl⟩
    rcases List.mem_map.mp hel with ⟨c, _, rfl⟩
    rfl
  · rcases List.mem_map.mp h with ⟨t, _, rfl⟩; rfl
  · rw [List.mem_singleton.mp h]; rfl

/-- With at least two argv entries, parsing succeeds and yields exactly
the configuration main computes. -/
theorem parseArgs_eq_some (argv : List String) (h : 2 ≤ argv.length) :
    parseArgs argv
      = some ⟨strtoul (argv.getD 1 "") <<< PAGE_SHIFT,
          if 3 ≤ argv.length then strtoul (argv.getD 2 "") else 1,
          if 4 ≤ argv.length then strtoul (argv.getD 3 "") else 1,
          if 5 ≤ argv.length then (MAP_ANONYMOUS ||| MAP_PRIVATE) ||| MAP_HUGETLB
          else MAP_ANONYMOUS ||| MAP_PRIVATE⟩ := by
  rw [parseArgs, if_neg (by omega)]

/-- A successful parse turns main into the two-phase run with exit 0. -/
theorem main_eq_run (argv : List String) (o : Oracles) (cfg : Config)
    (hp : parseArgs argv = some cfg) : main argv o = (runTrace cfg o, 0) := by
  unfold main
  rw [hp]

/-- A failed parse turns main into the usage message with exit -1. -/
theorem main_eq_usage (argv : List String) (o : Oracles)
    (h : argv.length < 2) :
    main argv o = ([Event.usageMsg Stream.stdout], -1) := by
  have hp : parseArgs argv = none := by rw [parseArgs, if_pos h]
  unfold main
  rw [hp]

/-- A fixed trivial environment for concrete evaluations: every mmap
returns address 0, every rdtsc sample is 0, every accumulator happens to
start at 0, and pthread_create returns 0. -/
def o0 : Oracles := ⟨fun _ _ => 0, fun _ _ _ => 0, fun _ _ => 0, fun _ _ => 0⟩

/-- An environment identical to o0 except that every pthread_create call
fails with EAGAIN (return value 11). -/
def oFail : Oracles := ⟨fun _ _ => 0, fun _ _ _ => 0, fun _ _ => 0, fun _ _ => 11⟩

/-- A fixed small configuration: 1 page per operation, 1 operation, 1
thread, default flags. -/
def cfg0 : Config := ⟨4096, 1, 1, 34⟩

/-- C1: for every configuration, a full run attempts exactly
num_threads * num_allocations mmap operations and exactly
num_threads * num_allocations munmap operations, whatever the
environment does. -/
theorem C1_attempted_operation_counts (cfg : Config) (o : Oracles) :
    (runTrace cfg o).countP Event.isMmapCall
        = cfg.num_threads * cfg.num_allocations
      ∧ (runTrace cfg o).countP Event.isMunmapCall
        = cfg.num_threads * cfg.num_allocations := by
  constructor
  · rw [runTrace, List.countP_append, countP_mmap_mapPhase,
      countP_mmap_unmapPhase]
    simp
  · rw [runTrace, List.countP_append, countP_munmap_mapPhase,
      countP_munmap_unmapPhase]
    simp

/-- C2 (code bug): map_thread's local map_time is never initialized, so
the total returned to the coordinator is the accumulator's indeterminate
initial value plus the sum of the per-operation cycle deltas, not that
sum alone.  With initial garbage 1, one operation, and rdtsc samples 0
then 5, the worker returns 6 whereas the sum of the per-operation deltas
is 5. -/
theorem C2_uninitialized_accumulator :
    (map_thread 4096 34 1 (fun _ => 0) (fun k => 5 * k) 1).2.2
        = u64add 1 (u64sub (5 * 1) (5 * 0))
      ∧ u64add 1 (u64sub (5 * 1) (5 * 0)) = 6
      ∧ u64sub (5 * 1) (5 * 0) = 5
      ∧ (map_thread 4096 34 1 (fun _ => 0) (fun k => 5 * k) 1).2.2
        ≠ u64sub (5 * 1) (5 * 0) := by
  refine ⟨rfl, by decide, by decide, by decide⟩

/-- C3 counterexample: invoked with 1 page, 1 operation per thread and 2
threads, each mmap call requests the full 4096-byte size, so the map
phase requests 8192 bytes in total; the configured total region size is
4096, the claim's per-operation share would be 4096 / (2 * 1) = 2048,
and 8192 differs from 2 * 1 * 2048 although the division leaves no
remainder at all. -/
theorem C3_size_not_divided_counterexample :
    parseArgs ["alloc_test", "1", "1", "2"] = some ⟨4096, 1, 2, 34⟩
      ∧ ((runTrace ⟨4096, 1, 2, 34⟩ o0).map Event.bytesRequested).sum = 8192
      ∧ (8192 : Nat) ≠ 2 * 1 * (4096 / (2 * 1))
      ∧ 4096 % (2 * 1) = 0 := by
  decide

/-- C3 amended: the configured size is not divided across threads or
operations: every mmap call requests the full configured size, so a run
requests num_threads * num_allocations * size bytes in total. -/
theorem C3_total_bytes_requested (cfg : Config) (o : Oracles) :
    ((runTrace cfg o).map Event.bytesRequested).sum
      = cfg.num_threads * (cfg.num_allocations * cfg.size) := by
  rw [runTrace, List.map_append, List.sum_append, bytes_mapPhase,
    bytes_unmapPhase]
  simp

/-- C4: the two phases are strictly sequential: in the run trace, every
join of a map worker precedes every munmap call, so every Address Book is
fully populated before any unmap worker consumes a slot. -/
theorem C4_phase_ordering (cfg : Config) (o : Oracles) (i j : Nat)
    (hi : i < (runTrace cfg o).length) (hj : j < (runTrace cfg o).length)
    (hJ : ((runTrace cfg o).get ⟨i, hi⟩).isMapJoin = true)
    (hU : ((runTrace cfg o).get ⟨j, hj⟩).isMunmapCall = true) : i < j := by
  have hiM : i < (mapPhaseEvents cfg o).length := by
    by_contra hle
    push_neg at hle
    have hrem : i - (mapPhaseEvents cfg o).length
        < (unmapPhaseEvents cfg o).length := by
      have hlen := hi
      rw [runTrace, List.length_append] at hlen
      omega
    rw [List.get_eq_getElem] at hJ
    simp only [runTrace] at hJ
    rw [List.getElem_append_right hle] at hJ
    have hno := unmapPhase_no_mapJoin cfg o _ (List.getElem_mem hrem)
    rw [hno] at hJ
    cases hJ
  have hjU : (mapPhaseEvents cfg o).length ≤ j := by
    by_contra hlt
    push_neg at hlt
    rw [List.get_eq_getElem] at hU
    simp only [runTrace] at hU
    rw [List.getElem_append_left hlt] at hU
    have hno := mapPhase_no_munmap cfg o _ (List.getElem_mem hlt)
    rw [hno] at hU
    cases hU
  omega

/-- Witness for C4: in the concrete 1-thread 1-operation run, event 3 is
the join of map worker 0 and event 7 is the only munmap call, and indeed
3 < 7. -/
theorem C4_phase_ordering_witness : (3 : Nat) < 7 :=
  C4_phase_ordering cfg0 o0 3 7 (by decide) (by decide) (by decide)
    (by decide)

/-- C5: per thread t, in a run where no map operation failed, the munmap
calls of the unmap phase pass exactly the addresses the map phase
recorded in the Address Book, slot by slot in index order, each slot
exactly once. -/
theorem C5_slot_correspondence (cfg : Config) (o : Oracles) (t : Nat)
    (hok : ∀ i, i < cfg.num_allocations → o.os t i ≠ MAP_FAILED) :
    (unmapResult cfg o t).1.map MunmapCall.addr = book cfg o t
      ∧ (unmapResult cfg o t).1.map MunmapCall.idx
        = List.range cfg.num_allocations
      ∧ (book cfg o t).length = cfg.num_allocations := by
  refine ⟨?_, ?_, book_length cfg o t⟩
  · rw [unmapResult, unmap_thread_calls, List.range_eq_range']
    exact zipWith_munmap_addr cfg.size (book cfg o t) 0
  · rw [unmapResult, unmap_thread_calls, List.range_eq_range',
      zipWith_munmap_idx, book_length, List.range_eq_range']

/-- Witness for C5: the 1-thread 1-operation run with no mmap failure has
its single mapped address unmapped at slot 0 exactly once. -/
theorem C5_slot_correspondence_witness :
    (unmapResult cfg0 o0 0).1.map MunmapCall.addr = book cfg0 o0 0
      ∧ (unmapResult cfg0 o0 0).1.map MunmapCall.idx = List.range 1
      ∧ (book cfg0 o0 0).length = 1 :=
  C5_slot_correspondence cfg0 o0 0 (by decide)

/-- C6 counterexample: an Address Book whose single slot holds the
sentinel MAP_FAILED still gets a munmap call — nothing is skipped — and
the cycle delta of that call (5 cycles, from samples 0 and 5, with the
accumulator starting at 0) is added to the worker's total. -/
theorem C6_sentinel_not_skipped_counterexample :
    (unmap_thread 4096 [MAP_FAILED] (fun k => 5 * k) 0).1
        = [⟨0, MAP_FAILED, 4096⟩]
      ∧ (unmap_thread 4096 [MAP_FAILED] (fun k => 5 * k) 0).2 = 5
      ∧ (5 : Nat) ≠ 0 := by
  decide

/-- C6 amended: unmap_thread skips nothing: every Address Book slot,
sentinel or not, receives exactly one munmap call in index order, and the
cycle delta of every slot, sentinel included, is accumulated into the
total; the remaining slots are still processed (no retry, no abort). -/
theorem C6_unmap_processes_every_slot (size : Nat) (book : List Nat)
    (clk : Nat → Nat) (time0 : Nat) :
    (unmap_thread size book clk time0).1.map MunmapCall.addr = book
      ∧ (unmap_thread size book clk time0).1.map MunmapCall.idx
        = List.range book.length
      ∧ (unmap_thread size book clk time0).2
        = (List.range book.length).foldl
            (fun acc k => u64add acc (u64sub (clk (2 * k + 1)) (clk (2 * k))))
            time0 := by
  refine ⟨?_, ?_, unmap_thread_time size book clk time0⟩
  · rw [unmap_thread_calls, List.range_eq_range']
    exact zipWith_munmap_addr size book 0
  · rw [unmap_thread_calls, List.range_eq_range', zipWith_munmap_idx]

/-- C7 counterexample: invoked without the size argument, the usage
message is printed to standard output (printf), not to standard error. -/
theorem C7_usage_stream_counterexample :
    (main ["alloc_test"] o0).1 = [Event.usageMsg Stream.stdout]
      ∧ Event.usageMsg Stream.stderr ∉ (main ["alloc_test"] o0).1
      ∧ (main ["alloc_test"] o0).2 = -1 := by
  decide

/-- C7 amended: an invocation missing the mandatory size argument prints
the usage message to standard output and exits with -1 (non-zero),
before any thread is created or any map operation performed: the trace is
the single usage event. -/
theorem C7_usage_error_stdout (argv : List String) (o : Oracles)
    (h : argv.length < 2) :
    main argv o = ([Event.usageMsg Stream.stdout], -1) :=
  main_eq_usage argv o h

/-- Witness for C7: the one-argument invocation. -/
theorem C7_usage_error_stdout_witness :
    main ["alloc_test"] o0 = ([Event.usageMsg Stream.stdout], -1) :=
  C7_usage_error_stdout ["alloc_test"] o0 (by decide)

/-- C8 counterexample: with pthread_create failing (returning EAGAIN =
11), the run does not abort as a hard failure: the code never inspects
the return value, so it proceeds to pthread_join an uninitialized thread
handle and the run has no defined outcome at all (none) — in particular
no defined abort-without-report. -/
theorem C8_create_failure_counterexample :
    oFail.createRet Phase.map 0 ≠ 0
      ∧ createsOk oFail 1 = false
      ∧ runResult ["alloc_test", "1"] oFail = none := by
  decide

/-- C8 amended: there is no abort path for thread-creation failure:
every defined outcome of a run is either the usage error (exit -1,
nothing spawned) or a complete two-phase run (exit 0 with both phase
reports).  A run whose creation fails yields neither — it reaches
undefined behavior — so the code never produces a hard-failure abort. -/
theorem C8_no_hard_failure_outcome (argv : List String) (o : Oracles)
    (tr : List Event) (code : Int)
    (h : runResult argv o = some (tr, code)) :
    (code = -1 ∧ tr = [Event.usageMsg Stream.stdout])
      ∨ (code = 0 ∧ tr.countP Event.isReport = 2) := by
  unfold runResult at h
  cases hp : parseArgs argv with
  | none =>
      rw [hp] at h
      simp only [Option.some.injEq, Prod.mk.injEq] at h
      exact Or.inl ⟨h.2.symm, h.1.symm⟩
  | some cfg =>
      rw [hp] at h
      cases hok : createsOk o cfg.num_threads with
      | false =>
          simp [hok] at h
      | true =>
          simp [hok] at h
          obtain ⟨h1, h2⟩ := h
          subst h1
          subst h2
          refine Or.inr ⟨rfl, ?_⟩
          rw [runTrace, List.countP_append, countP_report_mapPhase,
            countP_report_unmapPhase]

/-- Witness for C8: a defined run (all creations succeed) lands in the
complete-two-phase-run disjunct. -/
theorem C8_no_hard_failure_outcome_witness :
    ((0 : Int) = -1
        ∧ runTrace ⟨4096, 1, 1, 34⟩ o0 = [Event.usageMsg Stream.stdout])
      ∨ ((0 : Int) = 0
        ∧ (runTrace ⟨4096, 1, 1, 34⟩ o0).countP Event.isReport = 2) :=
  C8_no_hard_failure_outcome ["alloc_test", "1"] o0
    (runTrace ⟨4096, 1, 1, 34⟩ o0) 0 (by decide)

/-- C9 counterexample: a size argument of 0 gives a per-operation share
of 0 bytes, yet the configuration is accepted: both phases still spawn
their worker (two creation events) and the run exits 0 — nothing is
rejected before spawning. -/
theorem C9_zero_size_not_rejected_counterexample :
    parseArgs ["alloc_test", "0"] = some ⟨0, 1, 1, 34⟩
      ∧ (main ["alloc_test", "0"] o0).2 = 0
      ∧ (main ["alloc_test", "0"] o0).1.countP Event.isCreate = 2 := by
  decide

/-- C9 amended: main performs no validation of the per-operation share:
even when the parsed size is zero, the run proceeds, spawns num_threads
workers in each phase and exits 0. -/
theorem C9_no_share_validation (argv : List String) (o : Oracles)
    (cfg : Config) (hp : parseArgs argv = some cfg) (hz : cfg.size = 0) :
    (main argv o).2 = 0
      ∧ (main argv o).1.countP Event.isCreate = 2 * cfg.num_threads := by
  rw [main_eq_run argv o cfg hp]
  refine ⟨rfl, ?_⟩
  rw [runTrace, List.countP_append, countP_create_mapPhase,
    countP_create_unmapPhase]
  omega

/-- Witness for C9: the zero-size invocation. -/
theorem C9_no_share_validation_witness :
    (main ["alloc_test", "0"] o0).2 = 0
      ∧ (main ["alloc_test", "0"] o0).1.countP Event.isCreate = 2 :=
  C9_no_share_validation ["alloc_test", "0"] o0 ⟨0, 1, 1, 34⟩ (by decide) rfl

/-- C10: MAP_HUGETLB is OR-ed into the flags exactly when a fourth
positional argument is present (argc >= 5), whatever that argument's
value: the parsed flags depend only on the number of arguments, and with
fewer arguments the huge-page bit is absent. -/
theorem C10_hugetlb_by_presence (argv : List String) (cfg : Config)
    (hp : parseArgs argv = some cfg) :
    cfg.flags = (if 5 ≤ argv.length
        then (MAP_ANONYMOUS ||| MAP_PRIVATE) ||| MAP_HUGETLB
        else MAP_ANONYMOUS ||| MAP_PRIVATE)
      ∧ cfg.flags &&& MAP_HUGETLB
        = (if 5 ≤ argv.length then MAP_HUGETLB else 0) := by
  rw [parseArgs] at hp
  by_cases h2 : argv.length < 2
  · rw [if_pos h2] at hp
    cases hp
  · rw [if_neg h2] at hp
    cases hp
    by_cases h5 : 5 ≤ argv.length
    · simp only [if_pos h5]
      exact ⟨trivial, by decide⟩
    · simp only [if_neg h5]
      exact ⟨trivial, by decide⟩

/-- Witness for C10: a fourth positional argument of "no" still enables
MAP_HUGETLB. -/
theorem C10_hugetlb_by_presence_witness :
    (262178 : Nat) = (if 5 ≤ (["alloc_test", "1", "1", "1", "no"]
          : List String).length
        then (MAP_ANONYMOUS ||| MAP_PRIVATE) ||| MAP_HUGETLB
        else MAP_ANONYMOUS ||| MAP_PRIVATE)
      ∧ (262178 : Nat) &&& MAP_HUGETLB
        = (if 5 ≤ (["alloc_test", "1", "1", "1", "no"] : List String).length
          then MAP_HUGETLB else 0) :=
  C10_hugetlb_by_presence ["alloc_test", "1", "1", "1", "no"]
    ⟨4096, 1, 1, 262178⟩ (by decide)

end AllocTest
